import Mathlib

/-!
Verification of the FlexGet `content_filter` plugin
(`flexget/plugins/filter/content_filter.py`) and the `make_rss` output plugin
(`flexget/plugins/output/rss.py`), shallowly embedded in Lean.

Conventions of the embedding:
* Python's `fnmatch.fnmatch` (standard library, posix case behaviour) is
  modelled for patterns built from literal characters, `*` and `?`;
  bracket character classes are not modelled (no claim uses them).
* Fallible actions (template rendering, the XML write) are represented by
  explicit result values; an exception that the source code does not catch is
  represented by a distinguished outcome constructor.
* Timestamps are integers measured in days, so `datetime.timedelta(days=d)`
  is the integer `d` and datetime comparison is integer comparison.
-/

namespace ContentFilter

/-- Glob matching with explicit fuel.  Each recursive call strictly decreases
`pattern.length + name.length`, so fuel `pattern.length + name.length + 1` is
always sufficient; the fuel only makes the recursion structural. -/
def globMatchFuel : Nat → List Char → List Char → Bool
  | 0, _, _ => false
  | _ + 1, [], [] => true
  | k + 1, '*' :: ps, [] => globMatchFuel k ps []
  | _ + 1, _ :: _, [] => false
  | _ + 1, [], _ :: _ => false
  | k + 1, '*' :: ps, c :: cs =>
      globMatchFuel k ps (c :: cs) || globMatchFuel k ('*' :: ps) cs
  | k + 1, '?' :: ps, _ :: cs => globMatchFuel k ps cs
  | k + 1, p :: ps, c :: cs => (p = c) && globMatchFuel k ps cs

/-- Model of Python `fnmatch.fnmatch(name, pat)` for patterns without bracket
classes (posix: no case normalisation). -/
def fnmatch (name pat : String) : Bool :=
  globMatchFuel (pat.length + name.length + 1) pat.toList name.toList

/-- The normalised `content_filter` configuration (`get_config`): each of the
three mask keys is a list (a single string is wrapped into a one-element
list), an absent key is the empty list, and `strict` defaults to false. -/
structure ContentConfig where
  require : List String
  require_all : List String
  reject : List String
  strict : Bool
deriving DecidableEq

/-- `matching_mask(files, masks)` from `process_entry`: the outer loop runs
over `files`, the inner loop over `masks`, and the first `fnmatch` hit returns
its mask (`False`, modelled as `none`, when no pair matches). -/
def matchingMask : List String → List String → Option String
  | [], _ => none
  | f :: fs, masks =>
    match masks.find? (fun m => fnmatch f m) with
    | some m => some m
    | none => matchingMask fs masks

/-- Python truthiness of the `matching_mask` result: `False` and the empty
string are falsy, any other returned mask is truthy. -/
def maskTruthy : Option String → Bool
  | none => false
  | some m => !(m = "")

/-- The `require_all` counter in `process_entry`: the total number of
`(file, mask)` pairs for which `fnmatch(file, mask)` holds. -/
def countMatches : List String → List String → Nat
  | [], _ => 0
  | f :: fs, masks => (masks.countP (fun m => fnmatch f m)) + countMatches fs masks

/-- `process_entry` on an entry that has `content_files`: the three rule
blocks in source order, each an early return carrying the reject reason;
`none` means the entry is not rejected.  The `require_all` block compares the
aggregate match count with the number of masks, exactly as the source does. -/
def processEntry (cfg : ContentConfig) (files : List String) : Option String :=
  if cfg.require ≠ [] ∧ maskTruthy (matchingMask files cfg.require) = false then
    some "does not have any of the required filetypes"
  else if cfg.require_all ≠ [] ∧ countMatches files cfg.require_all ≠ cfg.require_all.length then
    some "does not have all of the required filetypes"
  else if cfg.reject ≠ [] ∧ maskTruthy (matchingMask files cfg.reject) = true then
    some ("has banned file " ++ (matchingMask files cfg.reject).getD "")
  else
    none

/-- An entry as the filter sees it in `on_task_modify`: the optional
`content_files` manifest and the optional torrent file list (already joined
into full paths, as `parse_torrent_files` does with `posixpath.join`). -/
structure FilterEntry where
  content_files : Option (List String)
  torrent : Option (List String)
deriving DecidableEq

/-- `parse_torrent_files`: when a torrent is present and its file list is
non-empty, store it as the entry's `content_files`. -/
def parseTorrentFiles (e : FilterEntry) : FilterEntry :=
  match e.torrent with
  | some items => if items ≠ [] then { e with content_files := some items } else e
  | none => e

/-- `process_entry`'s outer guard `if 'content_files' in entry`: with no
manifest the three rule blocks are never evaluated and nothing is rejected. -/
def processEntryE (cfg : ContentConfig) (e : FilterEntry) : Option String :=
  match e.content_files with
  | some files => processEntry cfg files
  | none => none

/-- The per-entry decision of `on_task_modify`: parse torrent files, run
`process_entry`, and otherwise reject in strict mode exactly when no
`content_files` were parsed. -/
def onTaskModifyEntry (cfg : ContentConfig) (e : FilterEntry) : Option String :=
  let e1 := parseTorrentFiles e
  match processEntryE cfg e1 with
  | some r => some r
  | none =>
    if e1.content_files = none ∧ cfg.strict = true then
      some "no content files parsed for entry"
    else
      none

/-- Modelled from the spec: `matchAny(files, masks)` as the specification
words it — the first mask **in mask-list order** for which any file matches;
`None` if no file matches any mask.  Kept separate from `matchingMask`
(translated from the source) for refinement comparison. -/
def specMatchAny (files masks : List String) : Option String :=
  masks.find? (fun m => files.any (fun f => fnmatch f m))

/-- Modelled from the spec: the four-step decision rule of claim C7 —
(1) require non-empty and no file matches any require mask: reject;
(2) the require_all check (as the source performs it);
(3) reject non-empty and some file matches a reject mask: reject, naming it;
(4) otherwise accept.  Used to compare the claimed rule with `processEntry`. -/
def decideSpecC7 (cfg : ContentConfig) (files : List String) : Option String :=
  if cfg.require ≠ [] ∧ specMatchAny files cfg.require = none then
    some "does not have any of the required filetypes"
  else if cfg.require_all ≠ [] ∧ countMatches files cfg.require_all ≠ cfg.require_all.length then
    some "does not have all of the required filetypes"
  else if cfg.reject ≠ [] then
    match specMatchAny files cfg.reject with
    | some m => some ("has banned file " ++ m)
    | none => none
  else
    none

/-- The amended form of claim C2's positive case: scan the files in list
order; for the first file matching some mask, return the first mask in
mask-list order that this file matches. -/
def specMatchAnyFileMajor (files masks : List String) : Option String :=
  files.findSome? (fun f => masks.find? (fun m => fnmatch f m))

/-- Fixture: a rule set with only `require_all = ["*.mkv", "*.srt"]`. -/
def cfgReqAll : ContentConfig :=
  { require := [], require_all := ["*.mkv", "*.srt"], reject := [], strict := false }

/-- Fixture: a rule set whose single require mask is the empty string. -/
def cfgEmptyRequire : ContentConfig :=
  { require := [""], require_all := [], reject := [], strict := false }

/-- Fixture: a strict rule set with a require mask. -/
def cfgStrictA : ContentConfig :=
  { require := ["*.avi"], require_all := [], reject := [], strict := true }

/-- Fixture: a strict rule set with a reject mask instead. -/
def cfgStrictB : ContentConfig :=
  { require := [], require_all := [], reject := ["*.nfo"], strict := true }

/-- Fixture: an entry with neither `content_files` nor a torrent. -/
def entryNoFiles : FilterEntry := { content_files := none, torrent := none }

end ContentFilter

namespace MakeRss

/-- A row of the `make_rss` table (class `RSSEntry`).  `link` is `none` when
no configured link field was present on the entry; `published` is the
`DateTime` column, in integer days. -/
structure RSSEntry where
  id : Nat
  title : String
  description : String
  link : Option String
  file : String
  published : Int
deriving DecidableEq

/-- The `gen` dictionary handed to `PyRSS2Gen.RSSItem` for one record. -/
structure RSSItem where
  title : String
  description : String
  link : Option String
  pubDate : Int
deriving DecidableEq

/-- Build the feed item of a stored record (`on_process_end`, `gen = {...}`). -/
def toFeedItem (r : RSSEntry) : RSSItem :=
  { title := r.title, description := r.description, link := r.link, pubDate := r.published }

/-- The normalised `make_rss` configuration after `get_config` applied its
defaults (`days = 7`, `items = -1`, `history = true`,
`encoding = iso-8859-1`, `link = [imdb_url, input_url]`). -/
structure RssConfig where
  file : String
  days : Int := 7
  items : Int := -1
  history : Bool := true
  encoding : String := "iso-8859-1"
  link : List String := ["imdb_url", "input_url"]
deriving DecidableEq

/-- Kinds of exception `rss.write_xml` may raise inside the `try` block. -/
inductive WriteFail
  | lookupErr
  | ioErr
deriving DecidableEq

/-- The ambient facts `on_process_end` observes: whether `PyRSS2Gen`
imported, the `--learn` flag, the current clock, whether `open(fn, 'w')`
succeeds, and how `rss.write_xml` behaves. -/
structure RssEnv where
  rss2gen : Bool
  learn : Bool
  now : Int
  openOk : Bool
  writeErr : Option WriteFail
deriving DecidableEq

/-- The plugin-visible state: the process-lifetime `self.written` marker map,
the `make_rss` table, and the log of completed physical feed writes. -/
structure RssState where
  written : List String
  store : List RSSEntry
  writes : List (String × List RSSItem)
deriving DecidableEq

/-- How `on_process_end` returns: `notRun` for the `rss2gen` / `--learn`
early returns, `skipped` for an already-written destination, `writeOk` for a
successful write, `badEncoding` / `writeFailed` for the two caught
`write_xml` exceptions, and `openRaised` for the `IOError` that `open(fn,
'w')` raises **outside** the `try` block and that therefore propagates out of
the method. -/
inductive ProcOutcome
  | notRun
  | skipped
  | writeOk
  | badEncoding
  | writeFailed
  | openRaised
deriving DecidableEq

/-- The SQL query of `on_process_end`: records of this destination file,
ordered by `published` descending. -/
def dbItemsFor (file : String) (store : List RSSEntry) : List RSSEntry :=
  List.insertionSort (fun a b => b.published ≤ a.published)
    (store.filter (fun r => r.file = file))

/-- The `add` flag of the selection loop in `on_process_end`: it starts true,
is cleared when `items != -1` and the current count of added items exceeds
`items`, and is cleared when `days != -1` and
`today - timedelta(days) > published`. -/
def keepAdd (items days now : Int) (count : Nat) (r : RSSEntry) : Bool :=
  let add := true
  let add := if items ≠ -1 ∧ (count : Int) > items then false else add
  let add := if days ≠ -1 ∧ now - days > r.published then false else add
  add

/-- The selection loop of `on_process_end`: walk the ordered records keeping
a count of items already added; an added record goes into the generated feed,
a record with `add` cleared is passed to `session.delete`.  Returns the pair
(feed records, deleted records), each in walk order. -/
def selectItems (items days now : Int) : List RSSEntry → Nat → List RSSEntry × List RSSEntry
  | [], _ => ([], [])
  | r :: rs, count =>
    if keepAdd items days now count r then
      (r :: (selectItems items days now rs (count + 1)).fst,
        (selectItems items days now rs (count + 1)).snd)
    else
      ((selectItems items days now rs count).fst,
        r :: (selectItems items days now rs count).snd)

/-- The records that end up in the generated feed for this destination. -/
def keptRecords (cfg : RssConfig) (env : RssEnv) (st : RssState) : List RSSEntry :=
  (selectItems cfg.items cfg.days env.now (dbItemsFor cfg.file st.store) 0).fst

/-- The records `on_process_end` deletes from the store for this destination. -/
def deletedRecords (cfg : RssConfig) (env : RssEnv) (st : RssState) : List RSSEntry :=
  (selectItems cfg.items cfg.days env.now (dbItemsFor cfg.file st.store) 0).snd

/-- The table contents after the deletions are committed. -/
def evictedStore (cfg : RssConfig) (env : RssEnv) (st : RssState) : List RSSEntry :=
  st.store.filter (fun r => r.id ∉ (deletedRecords cfg env st).map RSSEntry.id)

/-- `on_process_end`, phase by phase in source order: the `rss2gen` and
`--learn` early returns; the `self.written` skip check; the query, selection
loop and commit; then `open(fn, 'w')` (whose failure is raised outside the
`try` and escapes the method with the deletions already committed); then
`rss.write_xml`, whose `LookupError` / `IOError` are caught and turned into
an early return; finally `self.written[config['file']] = True` and the
physical write, recorded in `writes`. -/
def onProcessEnd (cfg : RssConfig) (env : RssEnv) (st : RssState) : ProcOutcome × RssState :=
  if env.rss2gen = false then (ProcOutcome.notRun, st)
  else if env.learn = true then (ProcOutcome.notRun, st)
  else if cfg.file ∈ st.written then (ProcOutcome.skipped, st)
  else
    let store1 := evictedStore cfg env st
    if env.openOk = false then (ProcOutcome.openRaised, { st with store := store1 })
    else
      match env.writeErr with
      | some WriteFail.lookupErr => (ProcOutcome.badEncoding, { st with store := store1 })
      | some WriteFail.ioErr => (ProcOutcome.writeFailed, { st with store := store1 })
      | none =>
          (ProcOutcome.writeOk,
            { written := st.written ++ [cfg.file]
              store := store1
              writes := st.writes ++ [(cfg.file, (keptRecords cfg env st).map toFeedItem)] })

/-- Number of completed physical writes to a destination in the write log. -/
def countWrites (file : String) (writes : List (String × List RSSItem)) : Nat :=
  (writes.filter (fun w => w.fst = file)).length

instance : DecidableEq (Except String String) := fun x y =>
  match x, y with
  | Except.ok a, Except.ok b =>
      if h : a = b then isTrue (by rw [h]) else isFalse (by simp [h])
  | Except.error a, Except.error b =>
      if h : a = b then isTrue (by rw [h]) else isFalse (by simp [h])
  | Except.ok _, Except.error _ => isFalse (by simp)
  | Except.error _, Except.ok _ => isFalse (by simp)

/-- An accepted entry as `on_task_exit` consumes it: the raw `entry['title']`
field, the already-rendered feed title (`entry.render(config['title'])`), the
entry's fields for the link lookup, and the outcome of rendering the
description template (`render_from_entry`, which may raise). -/
structure RssTaskEntry where
  title : String
  renderedTitle : String
  fields : List (String × String)
  descriptionRender : Except String String
deriving DecidableEq

/-- The link selection loop of `on_task_exit`: first configured field present
on the entry wins; `get_config` has already appended `url` as last resort. -/
def lookupLink (link : List String) (fields : List (String × String)) : Option String :=
  (link ++ ["url"]).findSome? (fun k => (fields.find? (fun kv => kv.fst = k)).map Prod.snd)

/-- Build the `RSSEntry` row `on_task_exit` inserts for one accepted entry.
`loadTime` is the clock reading taken when the `RSSEntry` class was created:
the source writes `default=datetime.datetime.utcnow()` — a call, evaluated
once at class-definition time — so the `published` default is that constant,
and `now`, the clock at insertion time, is never consulted. -/
def makeRssRecord (cfg : RssConfig) (loadTime now : Int) (nextId : Nat)
    (e : RssTaskEntry) : RSSEntry :=
  { id := nextId
    title := e.renderedTitle
    description :=
      match e.descriptionRender with
      | Except.ok d => d
      | Except.error _ => e.title ++ " - (Render Error)"
    link := lookupLink cfg.link e.fields
    file := cfg.file
    published := loadTime }

/-- Insert the rows for a batch of accepted entries, assigning increasing
primary keys. -/
def addRecords (cfg : RssConfig) (loadTime now : Int) (nextId : Nat) :
    List RssTaskEntry → List RSSEntry
  | [] => []
  | e :: es => makeRssRecord cfg loadTime now nextId e
      :: addRecords cfg loadTime now (nextId + 1) es

/-- `on_task_exit` in normal operation (no `--test`): when history is
disabled, first drop every stored record of this destination; then insert one
row per accepted entry. -/
def onTaskExit (cfg : RssConfig) (loadTime now : Int) (nextId : Nat)
    (entries : List RssTaskEntry) (st : RssState) : RssState :=
  let base := if cfg.history then st.store else st.store.filter (fun r => r.file ≠ cfg.file)
  { st with store := base ++ addRecords cfg loadTime now nextId entries }

instance : IsTotal RSSEntry (fun a b => b.published ≤ a.published) :=
  ⟨fun a b => le_total b.published a.published⟩

instance : IsTrans RSSEntry (fun a b => b.published ≤ a.published) :=
  ⟨fun _ _ _ hab hbc => le_trans hbc hab⟩

/-- Fixture: a destination with `items = 1` and the age bound disabled. -/
def cfgItems1 : RssConfig := { file := "out.rss", days := -1, items := 1 }

/-- Fixture: an environment where `open` and `write_xml` both succeed. -/
def envPlain : RssEnv :=
  { rss2gen := true, learn := false, now := 100, openOk := true, writeErr := none }

/-- Fixture: the oldest of three stored records for `out.rss`. -/
def recOld : RSSEntry :=
  { id := 1, title := "old", description := "d1", link := none, file := "out.rss", published := 1 }

/-- Fixture: the middle of three stored records for `out.rss`. -/
def recMid : RSSEntry :=
  { id := 2, title := "mid", description := "d2", link := none, file := "out.rss", published := 2 }

/-- Fixture: the newest of three stored records for `out.rss`. -/
def recNew : RSSEntry :=
  { id := 3, title := "new", description := "d3", link := none, file := "out.rss", published := 3 }

/-- Fixture: state holding the three `out.rss` records, nothing written yet. -/
def stItems : RssState := { written := [], store := [recOld, recMid, recNew], writes := [] }

/-- Fixture: a destination with the default policy (`days = 7`, unlimited items). -/
def cfgW : RssConfig := { file := "w.rss" }

/-- Fixture: empty state. -/
def stEmpty : RssState := { written := [], store := [], writes := [] }

/-- Fixture: environment in which `open(fn, 'w')` raises `IOError`. -/
def envOpenFail : RssEnv :=
  { rss2gen := true, learn := false, now := 0, openOk := false, writeErr := none }

/-- Fixture: environment in which `write_xml` raises `LookupError`. -/
def envEncFail : RssEnv :=
  { rss2gen := true, learn := false, now := 0, openOk := true,
    writeErr := some WriteFail.lookupErr }

/-- Fixture: a destination for the write-once witness. -/
def cfgOnce : RssConfig := { file := "once.rss" }

/-- Fixture: environment for the write-once witness. -/
def envOnce : RssEnv :=
  { rss2gen := true, learn := false, now := 50, openOk := true, writeErr := none }

/-- Fixture: state with one fresh record for `once.rss`. -/
def stOnce : RssState :=
  { written := []
    store := [{ id := 7, title := "t", description := "d", link := none,
                file := "once.rss", published := 49 }]
    writes := [] }

/-- Fixture: destination for the age-eviction witness (defaults: `days = 7`). -/
def cfgDaysW : RssConfig := { file := "d.rss" }

/-- Fixture: environment at day 100 for the age-eviction witness. -/
def envDaysW : RssEnv :=
  { rss2gen := true, learn := false, now := 100, openOk := true, writeErr := none }

/-- Fixture: records aged 10, 3 and 1 days for `d.rss`. -/
def stDaysW : RssState :=
  { written := []
    store :=
      [{ id := 1, title := "a", description := "da", link := none, file := "d.rss",
         published := 90 },
       { id := 2, title := "b", description := "db", link := none, file := "d.rss",
         published := 97 },
       { id := 3, title := "c", description := "dc", link := none, file := "d.rss",
         published := 99 }]
    writes := [] }

/-- Fixture: a recording-phase config for the render-error witness. -/
def cfgRec : RssConfig := { file := "r.rss" }

/-- Fixture: an accepted entry whose description render fails. -/
def entRenderFail : RssTaskEntry :=
  { title := "T", renderedTitle := "RT", fields := [], descriptionRender := Except.error "boom" }

end MakeRss

namespace ContentFilter

/-- C1: the `require_all` rule as implemented does **not** require each mask
to be matched individually.  On the manifest `["a.mkv", "b.mkv"]` with
`require_all = ["*.mkv", "*.srt"]`, the mask `*.mkv` matches twice and the
mask `*.srt` matches zero times, yet `process_entry` accepts (returns no
rejection): the aggregate `(file, mask)` match count (2) equals the number of
masks (2), so the count test `matches != len(require_all)` passes. -/
theorem require_all_count_bug :
    processEntry cfgReqAll ["a.mkv", "b.mkv"] = none
    ∧ fnmatch "a.mkv" "*.srt" = false
    ∧ fnmatch "b.mkv" "*.srt" = false
    ∧ countMatches ["a.mkv", "b.mkv"] ["*.mkv", "*.srt"] = 2
    ∧ cfgReqAll.require_all.length = 2 := by decide

/-- C2 counterexample: on files `["b.srt", "a.mkv"]` and masks
`["*.mkv", "*.srt"]` the source's `matching_mask` returns `*.srt` (the first
mask matched by the first file), while the claimed mask-list-order rule —
the first mask, in mask order, matched by some file — would return `*.mkv`. -/
theorem matching_mask_order_counterexample :
    matchingMask ["b.srt", "a.mkv"] ["*.mkv", "*.srt"] = some "*.srt"
    ∧ specMatchAny ["b.srt", "a.mkv"] ["*.mkv", "*.srt"] = some "*.mkv"
    ∧ matchingMask ["b.srt", "a.mkv"] ["*.mkv", "*.srt"]
        ≠ specMatchAny ["b.srt", "a.mkv"] ["*.mkv", "*.srt"] := by decide

/-- C2 (amended): `matching_mask` returns `none` exactly when no file
glob-matches any mask; otherwise it scans the **files** in list order and
returns, for the first file that matches some mask, the first mask in
mask-list order that this file matches (file-major order, not mask-major). -/
theorem matching_mask_first_file_characterization (files masks : List String) :
    matchingMask files masks = specMatchAnyFileMajor files masks
    ∧ (matchingMask files masks = none
        ↔ ∀ f ∈ files, ∀ m ∈ masks, fnmatch f m = false) := by
  induction files with
  | nil =>
    refine ⟨rfl, ?_⟩
    simp [matchingMask]
  | cons f fs ih =>
    cases h : masks.find? (fun m => fnmatch f m) with
    | some m =>
      refine ⟨?_, ?_⟩
      · rw [matchingMask, h, specMatchAnyFileMajor, List.findSome?_cons, h]
      · constructor
        · intro hnone
          rw [matchingMask, h] at hnone
          exact absurd hnone (by simp)
        · intro hall
          have hmem : m ∈ masks := List.mem_of_find?_eq_some h
          have hmatch : fnmatch f m = true := by
            have := List.find?_some h
            simpa using this
          have := hall f (List.mem_cons_self f fs) m hmem
          rw [hmatch] at this
          exact absurd this (by simp)
    | none =>
      have hstep : matchingMask (f :: fs) masks = matchingMask fs masks := by
        rw [matchingMask, h]
      have hstep2 : specMatchAnyFileMajor (f :: fs) masks = specMatchAnyFileMajor fs masks := by
        rw [specMatchAnyFileMajor, List.findSome?_cons, h, specMatchAnyFileMajor]
      have hhead : ∀ m ∈ masks, fnmatch f m = false := by
        intro m hm
        have := (List.find?_eq_none.mp h) m hm
        simpa using this
      refine ⟨by rw [hstep, hstep2]; exact ih.1, ?_⟩
      rw [hstep, ih.2]
      constructor
      · intro htail g hg m hm
        rcases List.mem_cons.mp hg with hg1 | hg1
        · rw [hg1]; exact hhead m hm
        · exact htail g hg1 m hm
      · intro hall g hg m hm
        exact hall g (List.mem_cons_of_mem f hg) m hm

/-- Witness for C2's amended characterization at a concrete input. -/
theorem matching_mask_first_file_characterization_witness :
    matchingMask ["b.srt", "a.mkv"] ["*.mkv", "*.srt"]
        = specMatchAnyFileMajor ["b.srt", "a.mkv"] ["*.mkv", "*.srt"]
    ∧ (matchingMask ["b.srt", "a.mkv"] ["*.mkv", "*.srt"] = none
        ↔ ∀ f ∈ ["b.srt", "a.mkv"], ∀ m ∈ ["*.mkv", "*.srt"], fnmatch f m = false) :=
  matching_mask_first_file_characterization ["b.srt", "a.mkv"] ["*.mkv", "*.srt"]

end ContentFilter

namespace ContentFilter

/-- C7 counterexample: with `require = [""]` and manifest `[""]`, the file
`""` glob-matches the require mask `""` (`fnmatch('', '')` is true), so the
claimed rule accepts; but `matching_mask` returns the empty string, which is
falsy in Python, so `process_entry` takes the `not matching_mask(...)` branch
and rejects with the missing-required-filetype reason. -/
theorem process_entry_empty_mask_counterexample :
    processEntry cfgEmptyRequire [""] = some "does not have any of the required filetypes"
    ∧ decideSpecC7 cfgEmptyRequire [""] = none
    ∧ fnmatch "" "" = true := by decide

/-- C7 (amended): `process_entry` evaluates the rules in the claimed order
and returns the first applicable result, with match-existence read through
Python truthiness of the `matching_mask` return value: a returned empty
string mask counts as "no match" both for the require check and for the
reject check.  The four conjuncts are the four steps, each conditioned on
the earlier steps not firing. -/
theorem process_entry_rule_order (cfg : ContentConfig) (files : List String) :
    (cfg.require ≠ [] → maskTruthy (matchingMask files cfg.require) = false →
      processEntry cfg files = some "does not have any of the required filetypes")
    ∧ ((cfg.require = [] ∨ maskTruthy (matchingMask files cfg.require) = true) →
      cfg.require_all ≠ [] → countMatches files cfg.require_all ≠ cfg.require_all.length →
      processEntry cfg files = some "does not have all of the required filetypes")
    ∧ (∀ m, (cfg.require = [] ∨ maskTruthy (matchingMask files cfg.require) = true) →
      (cfg.require_all = [] ∨ countMatches files cfg.require_all = cfg.require_all.length) →
      cfg.reject ≠ [] → matchingMask files cfg.reject = some m → m ≠ "" →
      processEntry cfg files = some ("has banned file " ++ m))
    ∧ ((cfg.require = [] ∨ maskTruthy (matchingMask files cfg.require) = true) →
      (cfg.require_all = [] ∨ countMatches files cfg.require_all = cfg.require_all.length) →
      maskTruthy (matchingMask files cfg.reject) = false →
      processEntry cfg files = none) := by
  refine ⟨?_, ?_, ?_, ?_⟩
  · intro h1 h2
    rw [processEntry, if_pos ⟨h1, h2⟩]
  · intro hA h1 h2
    have hnA : ¬(cfg.require ≠ [] ∧ maskTruthy (matchingMask files cfg.require) = false) := by
      rcases hA with hA | hA
      · intro hc; exact hc.1 hA
      · intro hc; rw [hA] at hc; exact absurd hc.2 (by simp)
    rw [processEntry, if_neg hnA, if_pos ⟨h1, h2⟩]
  · intro m hA hB hrj hm hne
    have hnA : ¬(cfg.require ≠ [] ∧ maskTruthy (matchingMask files cfg.require) = false) := by
      rcases hA with hA | hA
      · intro hc; exact hc.1 hA
      · intro hc; rw [hA] at hc; exact absurd hc.2 (by simp)
    have hnB : ¬(cfg.require_all ≠ []
        ∧ countMatches files cfg.require_all ≠ cfg.require_all.length) := by
      rcases hB with hB | hB
      · intro hc; exact hc.1 hB
      · intro hc; exact hc.2 hB
    have htr : maskTruthy (matchingMask files cfg.reject) = true := by
      rw [hm, maskTruthy]
      simpa using hne
    rw [processEntry, if_neg hnA, if_neg hnB, if_pos ⟨hrj, htr⟩, hm]
    rfl
  · intro hA hB hfalse
    have hnA : ¬(cfg.require ≠ [] ∧ maskTruthy (matchingMask files cfg.require) = false) := by
      rcases hA with hA | hA
      · intro hc; exact hc.1 hA
      · intro hc; rw [hA] at hc; exact absurd hc.2 (by simp)
    have hnB : ¬(cfg.require_all ≠ []
        ∧ countMatches files cfg.require_all ≠ cfg.require_all.length) := by
      rcases hB with hB | hB
      · intro hc; exact hc.1 hB
      · intro hc; exact hc.2 hB
    have hnC : ¬(cfg.reject ≠ [] ∧ maskTruthy (matchingMask files cfg.reject) = true) := by
      intro hc
      rw [hfalse] at hc
      exact absurd hc.2 (by simp)
    rw [processEntry, if_neg hnA, if_neg hnB, if_neg hnC]

/-- Witness for C7's amended rule order: the reject step fires on a concrete
manifest containing a banned file. -/
theorem process_entry_rule_order_witness :
    processEntry cfgStrictB ["show.nfo"] = some ("has banned file " ++ "*.nfo") :=
  (process_entry_rule_order cfgStrictB ["show.nfo"]).2.2.1 "*.nfo"
    (Or.inl rfl) (Or.inl rfl) (by decide) (by decide) (by decide)

/-- C8: when an entry still has no `content_files` after torrent parsing, the
outcome is the strict-mode decision alone — reject with the no-content-files
reason exactly when `strict` is set, accept otherwise — and it is unchanged
by the `require`, `require_all` and `reject` masks (any two configurations
agreeing on `strict` produce the same outcome). -/
theorem strict_no_manifest (cfg cfg2 : ContentConfig) (e : FilterEntry)
    (h : (parseTorrentFiles e).content_files = none) (hs : cfg.strict = cfg2.strict) :
    onTaskModifyEntry cfg e
        = (if cfg.strict = true then some "no content files parsed for entry" else none)
    ∧ onTaskModifyEntry cfg e = onTaskModifyEntry cfg2 e := by
  have h1 : ∀ c : ContentConfig, processEntryE c (parseTorrentFiles e) = none := by
    intro c
    rw [processEntryE, h]
  constructor
  · rw [onTaskModifyEntry]
    simp only [h1, h]
    simp
  · rw [onTaskModifyEntry, onTaskModifyEntry]
    simp only [h1, h, hs]

/-- Witness for C8 at a concrete manifest-less entry, strict mode on. -/
theorem strict_no_manifest_witness :
    onTaskModifyEntry cfgStrictA entryNoFiles
        = (if cfgStrictA.strict = true then some "no content files parsed for entry" else none)
    ∧ onTaskModifyEntry cfgStrictA entryNoFiles = onTaskModifyEntry cfgStrictB entryNoFiles :=
  strict_no_manifest cfgStrictA cfgStrictB entryNoFiles (by decide) (by decide)

end ContentFilter

namespace MakeRss

theorem onProcessEnd_skip (cfg : RssConfig) (env : RssEnv) (st : RssState)
    (h2g : env.rss2gen = true) (hl : env.learn = false) (hw : cfg.file ∈ st.written) :
    onProcessEnd cfg env st = (ProcOutcome.skipped, st) := by
  rw [onProcessEnd]
  simp [h2g, hl, hw]

theorem onProcessEnd_openFail (cfg : RssConfig) (env : RssEnv) (st : RssState)
    (h2g : env.rss2gen = true) (hl : env.learn = false) (hnw : cfg.file ∉ st.written)
    (ho : env.openOk = false) :
    onProcessEnd cfg env st
      = (ProcOutcome.openRaised, { st with store := evictedStore cfg env st }) := by
  rw [onProcessEnd]
  simp [h2g, hl, hnw, ho]

theorem onProcessEnd_encFail (cfg : RssConfig) (env : RssEnv) (st : RssState)
    (h2g : env.rss2gen = true) (hl : env.learn = false) (hnw : cfg.file ∉ st.written)
    (ho : env.openOk = true) (he : env.writeErr = some WriteFail.lookupErr) :
    onProcessEnd cfg env st
      = (ProcOutcome.badEncoding, { st with store := evictedStore cfg env st }) := by
  rw [onProcessEnd]
  simp [h2g, hl, hnw, ho, he]

theorem onProcessEnd_writeFail (cfg : RssConfig) (env : RssEnv) (st : RssState)
    (h2g : env.rss2gen = true) (hl : env.learn = false) (hnw : cfg.file ∉ st.written)
    (ho : env.openOk = true) (he : env.writeErr = some WriteFail.ioErr) :
    onProcessEnd cfg env st
      = (ProcOutcome.writeFailed, { st with store := evictedStore cfg env st }) := by
  rw [onProcessEnd]
  simp [h2g, hl, hnw, ho, he]

theorem onProcessEnd_writeOk_eq (cfg : RssConfig) (env : RssEnv) (st : RssState)
    (h2g : env.rss2gen = true) (hl : env.learn = false) (hnw : cfg.file ∉ st.written)
    (ho : env.openOk = true) (he : env.writeErr = none) :
    onProcessEnd cfg env st
      = (ProcOutcome.writeOk,
          { written := st.written ++ [cfg.file]
            store := evictedStore cfg env st
            writes := st.writes ++ [(cfg.file, (keptRecords cfg env st).map toFeedItem)] }) := by
  rw [onProcessEnd]
  simp [h2g, hl, hnw, ho, he]

theorem onProcessEnd_store_eq (cfg : RssConfig) (env : RssEnv) (st : RssState)
    (h2g : env.rss2gen = true) (hl : env.learn = false) (hnw : cfg.file ∉ st.written) :
    ((onProcessEnd cfg env st).snd).store = evictedStore cfg env st := by
  cases ho : env.openOk with
  | false => rw [onProcessEnd_openFail cfg env st h2g hl hnw ho]
  | true =>
    cases he : env.writeErr with
    | none => rw [onProcessEnd_writeOk_eq cfg env st h2g hl hnw ho he]
    | some wf =>
      cases wf with
      | lookupErr => rw [onProcessEnd_encFail cfg env st h2g hl hnw ho he]
      | ioErr => rw [onProcessEnd_writeFail cfg env st h2g hl hnw ho he]

/-- C4: once `on_process_end` has performed a successful write for a
destination, the destination is in the `self.written` map, every later call
in the same process lifetime returns the skipped status with the state —
store and write log included — completely unchanged, and the two calls
together performed exactly one physical write to that destination. -/
theorem finalize_write_once (cfg : RssConfig) (env env2 : RssEnv) (st : RssState)
    (h : (onProcessEnd cfg env st).fst = ProcOutcome.writeOk)
    (h2g : env2.rss2gen = true) (h2l : env2.learn = false) :
    cfg.file ∈ ((onProcessEnd cfg env st).snd).written
    ∧ onProcessEnd cfg env2 ((onProcessEnd cfg env st).snd)
        = (ProcOutcome.skipped, (onProcessEnd cfg env st).snd)
    ∧ countWrites cfg.file ((onProcessEnd cfg env st).snd).writes
        = countWrites cfg.file st.writes + 1 := by
  have h2g1 : env.rss2gen = true := by
    cases hb : env.rss2gen with
    | true => rfl
    | false => rw [onProcessEnd] at h; simp [hb] at h
  have hl1 : env.learn = false := by
    cases hb : env.learn with
    | false => rfl
    | true => rw [onProcessEnd] at h; simp [h2g1, hb] at h
  have hnw1 : cfg.file ∉ st.written := by
    intro hmem
    rw [onProcessEnd_skip cfg env st h2g1 hl1 hmem] at h
    exact absurd h (by simp)
  have ho1 : env.openOk = true := by
    cases hb : env.openOk with
    | true => rfl
    | false =>
      rw [onProcessEnd_openFail cfg env st h2g1 hl1 hnw1 hb] at h
      exact absurd h (by simp)
  have he1 : env.writeErr = none := by
    cases hb : env.writeErr with
    | none => rfl
    | some wf =>
      cases wf with
      | lookupErr =>
        rw [onProcessEnd_encFail cfg env st h2g1 hl1 hnw1 ho1 hb] at h
        exact absurd h (by simp)
      | ioErr =>
        rw [onProcessEnd_writeFail cfg env st h2g1 hl1 hnw1 ho1 hb] at h
        exact absurd h (by simp)
  rw [onProcessEnd_writeOk_eq cfg env st h2g1 hl1 hnw1 ho1 he1]
  refine ⟨by simp, ?_, ?_⟩
  · exact onProcessEnd_skip cfg env2 _ h2g h2l (by simp)
  · rw [countWrites, countWrites]
    simp [List.filter_append]

/-- Witness for C4 at a concrete destination, environment and state. -/
theorem finalize_write_once_witness :
    cfgOnce.file ∈ ((onProcessEnd cfgOnce envOnce stOnce).snd).written
    ∧ onProcessEnd cfgOnce envOnce ((onProcessEnd cfgOnce envOnce stOnce).snd)
        = (ProcOutcome.skipped, (onProcessEnd cfgOnce envOnce stOnce).snd)
    ∧ countWrites cfgOnce.file ((onProcessEnd cfgOnce envOnce stOnce).snd).writes
        = countWrites cfgOnce.file stOnce.writes + 1 :=
  finalize_write_once cfgOnce envOnce envOnce stOnce (by decide) rfl rfl

/-- C3: with `items = 1` and three stored records, the selection loop keeps
the two newest records — one more than the configured bound — because the
source tests `len(rss_items) > config['items']` **before** appending: the
generated feed for `out.rss` holds 2 items although `items = 1`, and only the
third (oldest) record is evicted.  This contradicts the plugin's own
docstring ("no more than 10 items" for `items: 10`). -/
theorem items_limit_off_by_one :
    cfgItems1.items = 1
    ∧ keptRecords cfgItems1 envPlain stItems = [recNew, recMid]
    ∧ onProcessEnd cfgItems1 envPlain stItems
        = (ProcOutcome.writeOk,
            { written := ["out.rss"]
              store := [recMid, recNew]
              writes := [("out.rss", [toFeedItem recNew, toFeedItem recMid])] }) := by decide

/-- C6: an `IOError` from `open(fn, 'w')` — the unwritable-path case — is
raised **outside** the `try` block of `on_process_end` and therefore
propagates out of the method (outcome `openRaised`) instead of being
recovered; by contrast the unknown-encoding `LookupError` raised by
`write_xml` inside the `try` is caught and recovered, and in both cases the
destination is not marked as written, so a later cycle may retry. -/
theorem open_failure_propagates :
    (onProcessEnd cfgW envOpenFail stEmpty).fst = ProcOutcome.openRaised
    ∧ cfgW.file ∉ ((onProcessEnd cfgW envOpenFail stEmpty).snd).written
    ∧ onProcessEnd cfgW envEncFail stEmpty = (ProcOutcome.badEncoding, stEmpty)
    ∧ cfgW.file ∉ ((onProcessEnd cfgW envEncFail stEmpty).snd).written := by decide

end MakeRss

namespace MakeRss

theorem selectItems_fst_sublist (items days now : Int) (l : List RSSEntry) :
    ∀ k, ((selectItems items days now l k).fst).Sublist l := by
  induction l with
  | nil => intro k; rw [selectItems]
  | cons r rs ih =>
    intro k
    rw [selectItems]
    split
    · exact List.Sublist.cons₂ r (ih (k + 1))
    · exact List.Sublist.cons r (ih k)

theorem selectItems_perm (items days now : Int) (l : List RSSEntry) :
    ∀ k, List.Perm
      ((selectItems items days now l k).fst ++ (selectItems items days now l k).snd) l := by
  induction l with
  | nil => intro k; rw [selectItems]; exact List.Perm.refl _
  | cons r rs ih =>
    intro k
    rw [selectItems]
    split
    · exact List.Perm.cons r (ih (k + 1))
    · exact List.Perm.trans List.perm_middle (List.Perm.cons r (ih k))

theorem mem_selectItems_snd_of_old (items days now : Int) (hdays : days ≠ -1)
    (l : List RSSEntry) :
    ∀ k, ∀ r ∈ l, now - days > r.published → r ∈ (selectItems items days now l k).snd := by
  induction l with
  | nil => intro k r hr; exact absurd hr (by simp)
  | cons a rs ih =>
    intro k r hr hold
    rw [selectItems]
    rcases List.mem_cons.mp hr with h1 | h1
    · subst h1
      have hk : keepAdd items days now k r = false := by
        simp [keepAdd, hdays, hold]
      split
      case isTrue h => rw [hk] at h; exact absurd h (by simp)
      case isFalse h => exact List.mem_cons_self _ _
    · split
      · exact ih (k + 1) r h1 hold
      · exact List.mem_cons_of_mem a (ih k r h1 hold)

theorem selectItems_not_both (items days now : Int) (l : List RSSEntry) (hl : l.Nodup)
    (k : Nat) (r : RSSEntry) (h1 : r ∈ (selectItems items days now l k).fst)
    (h2 : r ∈ (selectItems items days now l k).snd) : False := by
  have hnd : ((selectItems items days now l k).fst
      ++ (selectItems items days now l k).snd).Nodup :=
    ((selectItems_perm items days now l k).nodup_iff).mpr hl
  exact (List.disjoint_left.mp (List.nodup_append.mp hnd).2.2) h1 h2

theorem mem_selectItems_of_mem (items days now : Int) (l : List RSSEntry) (k : Nat)
    (r : RSSEntry) (hr : r ∈ l) :
    r ∈ (selectItems items days now l k).fst ∨ r ∈ (selectItems items days now l k).snd :=
  List.mem_append.mp ((selectItems_perm items days now l k).mem_iff.mpr hr)

theorem mem_dbItemsFor (file : String) (store : List RSSEntry) (r : RSSEntry) :
    r ∈ dbItemsFor file store ↔ (r ∈ store ∧ r.file = file) := by
  rw [dbItemsFor, (List.perm_insertionSort _ _).mem_iff]
  simp [List.mem_filter]

theorem dbItemsFor_nodup (file : String) (store : List RSSEntry)
    (h : (store.map RSSEntry.id).Nodup) : (dbItemsFor file store).Nodup := by
  have h1 : store.Nodup := List.Nodup.of_map _ h
  rw [dbItemsFor]
  exact ((List.perm_insertionSort _ _).nodup_iff).mpr (h1.filter _)

theorem dbItemsFor_sorted (file : String) (store : List RSSEntry) :
    List.Pairwise (fun a b => b.published ≤ a.published) (dbItemsFor file store) :=
  List.sorted_insertionSort _ _

theorem mem_evictedStore (cfg : RssConfig) (env : RssEnv) (st : RssState) (r : RSSEntry) :
    r ∈ evictedStore cfg env st
      ↔ (r ∈ st.store ∧ r.id ∉ (deletedRecords cfg env st).map RSSEntry.id) := by
  rw [evictedStore]
  simp [List.mem_filter]

/-- C5: with an active age bound (`days ≠ -1`), `on_process_end` deletes from
the store every record of the destination whose age `now - published`
exceeds `days`; the feed records are sorted newest-first; a record is in the
feed exactly when it survives in the store for this destination; and on a
successful write the produced document is exactly those feed records. -/
theorem days_eviction_and_feed (cfg : RssConfig) (env : RssEnv) (st : RssState)
    (hdays : cfg.days ≠ -1) (h2g : env.rss2gen = true) (hl : env.learn = false)
    (hnw : cfg.file ∉ st.written) (hids : (st.store.map RSSEntry.id).Nodup) :
    (∀ r ∈ st.store, r.file = cfg.file → env.now - r.published > cfg.days →
        r ∉ ((onProcessEnd cfg env st).snd).store)
    ∧ List.Pairwise (fun a b => b.published ≤ a.published) (keptRecords cfg env st)
    ∧ (∀ r : RSSEntry, r ∈ keptRecords cfg env st
        ↔ (r ∈ ((onProcessEnd cfg env st).snd).store ∧ r.file = cfg.file))
    ∧ (env.openOk = true → env.writeErr = none →
        ((onProcessEnd cfg env st).snd).writes
          = st.writes ++ [(cfg.file, (keptRecords cfg env st).map toFeedItem)]) := by
  have hstore := onProcessEnd_store_eq cfg env st h2g hl hnw
  have hkept : keptRecords cfg env st
      = (selectItems cfg.items cfg.days env.now (dbItemsFor cfg.file st.store) 0).fst := rfl
  have hdel : deletedRecords cfg env st
      = (selectItems cfg.items cfg.days env.now (dbItemsFor cfg.file st.store) 0).snd := rfl
  refine ⟨?_, ?_, ?_, ?_⟩
  · intro r hr hf hage hmem
    rw [hstore] at hmem
    have hmem2 := (mem_evictedStore cfg env st r).mp hmem
    apply hmem2.2
    have hrdb : r ∈ dbItemsFor cfg.file st.store := (mem_dbItemsFor _ _ r).mpr ⟨hr, hf⟩
    have hrdel : r ∈ deletedRecords cfg env st := by
      rw [hdel]
      exact mem_selectItems_snd_of_old cfg.items cfg.days env.now hdays _ 0 r hrdb (by omega)
    exact List.mem_map_of_mem RSSEntry.id hrdel
  · rw [hkept]
    exact List.Pairwise.sublist (selectItems_fst_sublist _ _ _ _ 0)
      (dbItemsFor_sorted cfg.file st.store)
  · intro r
    constructor
    · intro hk
      rw [hkept] at hk
      have hrdb : r ∈ dbItemsFor cfg.file st.store :=
        (selectItems_fst_sublist cfg.items cfg.days env.now _ 0).subset hk
      have hrs := (mem_dbItemsFor cfg.file st.store r).mp hrdb
      refine ⟨?_, hrs.2⟩
      rw [hstore, mem_evictedStore]
      refine ⟨hrs.1, ?_⟩
      intro hid
      rcases List.mem_map.mp hid with ⟨d, hd, hdid⟩
      have hddb : d ∈ dbItemsFor cfg.file st.store := by
        rw [hdel] at hd
        exact (selectItems_perm cfg.items cfg.days env.now _ 0).mem_iff.mp
          (List.mem_append_right _ hd)
      have hds := (mem_dbItemsFor cfg.file st.store d).mp hddb
      have hdr : d = r := List.inj_on_of_nodup_map hids hds.1 hrs.1 hdid
      subst hdr
      rw [hdel] at hd
      exact selectItems_not_both cfg.items cfg.days env.now _
        (dbItemsFor_nodup cfg.file st.store hids) 0 d hk hd
    · rintro ⟨hmem, hf⟩
      rw [hstore, mem_evictedStore] at hmem
      have hrdb : r ∈ dbItemsFor cfg.file st.store := (mem_dbItemsFor _ _ r).mpr ⟨hmem.1, hf⟩
      rcases mem_selectItems_of_mem cfg.items cfg.days env.now _ 0 r hrdb with h | h
      · rw [hkept]; exact h
      · exfalso
        apply hmem.2
        rw [hdel]
        exact List.mem_map_of_mem RSSEntry.id h
  · intro ho he
    rw [onProcessEnd_writeOk_eq cfg env st h2g hl hnw ho he]

/-- Witness for C5: records aged 10, 3 and 1 days against `days = 7`. -/
theorem days_eviction_and_feed_witness :
    (∀ r ∈ stDaysW.store, r.file = cfgDaysW.file →
        envDaysW.now - r.published > cfgDaysW.days →
        r ∉ ((onProcessEnd cfgDaysW envDaysW stDaysW).snd).store)
    ∧ List.Pairwise (fun a b => b.published ≤ a.published)
        (keptRecords cfgDaysW envDaysW stDaysW)
    ∧ (∀ r : RSSEntry, r ∈ keptRecords cfgDaysW envDaysW stDaysW
        ↔ (r ∈ ((onProcessEnd cfgDaysW envDaysW stDaysW).snd).store
            ∧ r.file = cfgDaysW.file))
    ∧ (envDaysW.openOk = true → envDaysW.writeErr = none →
        ((onProcessEnd cfgDaysW envDaysW stDaysW).snd).writes
          = stDaysW.writes
              ++ [(cfgDaysW.file, (keptRecords cfgDaysW envDaysW stDaysW).map toFeedItem)]) :=
  days_eviction_and_feed cfgDaysW envDaysW stDaysW (by decide) rfl rfl (by decide) (by decide)

end MakeRss

namespace MakeRss

theorem mem_addRecords (cfg : RssConfig) (loadTime now : Int) (e : RssTaskEntry) :
    ∀ (entries : List RssTaskEntry) (nextId : Nat), e ∈ entries →
      ∃ j, makeRssRecord cfg loadTime now j e ∈ addRecords cfg loadTime now nextId entries := by
  intro entries
  induction entries with
  | nil => intro nextId h; exact absurd h (by simp)
  | cons a es ih =>
    intro nextId h
    rcases List.mem_cons.mp h with h1 | h1
    · subst h1
      refine ⟨nextId, ?_⟩
      rw [addRecords]
      exact List.mem_cons_self _ _
    · obtain ⟨j, hj⟩ := ih (nextId + 1) h1
      refine ⟨j, ?_⟩
      rw [addRecords]
      exact List.mem_cons_of_mem _ hj

/-- C9: if the description render of an accepted entry fails, `on_task_exit`
still inserts the record; its description is the entry's plain title with the
explicit render-error marker appended, and the rest of the record (feed
title, destination file) is as usual.  The insertion is total — no failure of
the description render escapes the recording phase. -/
theorem render_error_fallback (cfg : RssConfig) (loadTime now : Int) (nextId : Nat)
    (entries : List RssTaskEntry) (st : RssState) (e : RssTaskEntry) (msg : String)
    (he : e ∈ entries) (hr : e.descriptionRender = Except.error msg) :
    ∃ r ∈ (onTaskExit cfg loadTime now nextId entries st).store,
      r.title = e.renderedTitle
      ∧ r.description = e.title ++ " - (Render Error)"
      ∧ r.file = cfg.file := by
  obtain ⟨j, hj⟩ := mem_addRecords cfg loadTime now e entries nextId he
  refine ⟨makeRssRecord cfg loadTime now j e, ?_, rfl, ?_, rfl⟩
  · rw [onTaskExit]
    exact List.mem_append_right _ hj
  · rw [makeRssRecord, hr]

/-- Witness for C9 at a concrete entry whose description render fails. -/
theorem render_error_fallback_witness :
    ∃ r ∈ (onTaskExit cfgRec 0 5 0 [entRenderFail] stEmpty).store,
      r.title = entRenderFail.renderedTitle
      ∧ r.description = entRenderFail.title ++ " - (Render Error)"
      ∧ r.file = cfgRec.file :=
  render_error_fallback cfgRec 0 5 0 [entRenderFail] stEmpty entRenderFail "boom"
    (by simp) rfl

/-- C10: the `published` column default is the constant clock reading taken
when the record schema class was created
(`default=datetime.datetime.utcnow()` — a call, evaluated once), not the
insertion-time clock: any two records inserted through the default — at any
insertion times, for any configurations and entries — carry the identical
`published` value, and the newest-first comparator ties them in both
directions, so their retrieval order carries no information about insertion
order. -/
theorem default_published_constant (cfg cfg2 : RssConfig) (loadTime now now2 : Int)
    (i i2 : Nat) (e e2 : RssTaskEntry) :
    (makeRssRecord cfg loadTime now i e).published = loadTime
    ∧ (makeRssRecord cfg loadTime now i e).published
        = (makeRssRecord cfg2 loadTime now2 i2 e2).published
    ∧ (makeRssRecord cfg2 loadTime now2 i2 e2).published
        ≤ (makeRssRecord cfg loadTime now i e).published
    ∧ (makeRssRecord cfg loadTime now i e).published
        ≤ (makeRssRecord cfg2 loadTime now2 i2 e2).published :=
  ⟨rfl, rfl, le_refl _, le_refl _⟩

end MakeRss
